import Mathlib

/-!
Verification of the brove relay's authorization policy engine.

The development shallowly embeds the Go sources:
* `database.go` — the allowlist store (`DBManager` and its methods over the
  `allowed_pubkeys` table).  The backing PostgreSQL table is modelled as a
  list of `(pubkey, reason)` rows kept in insertion order (the table's
  `created_at` default assigns timestamps at insertion, and every listing
  orders by `created_at`), together with a `healthy` flag standing for
  connectivity of the backing store: a query against an unhealthy store is
  the event in which the Go driver returns an error.
* `main.go` (unnamed part_000) — the policy callbacks registered on the
  relay: the write policy (`relay.RejectEvent` custom func), the read policy
  (`relay.RejectFilter` custom func), the management pre-check
  (`relay.ManagementAPI.RejectAPICall`) and the management operations
  (`AllowPubKey`, `BanPubKey`, `ListAllowedPubKeys`, `ListBannedPubKeys`).
  The process environment is modelled as an `Option String` for the single
  variable the policies read (`RELAY_PUBKEY`), and the per-connection
  authenticated identity (`khatru.GetAuthed`) as a `String` that is empty
  exactly when the connection is unauthenticated, which is the contract the
  Go code relies on.
-/

namespace Brove

/-- Errors returned by the store operations, one constructor per distinct
error produced in `database.go`: the empty-pubkey guard of the mutating
operations, the rows-affected-zero branch of `RemoveAllowedPubkey`, and a
failure of the backing storage (driver/connectivity error). -/
inductive DBError where
  | emptyPubkey : DBError
  | notFound : String → DBError
  | connectivity : DBError
deriving DecidableEq, Repr

/-- State of the `allowed_pubkeys` table plus connectivity of the backing
store.  `allowed_pubkeys` holds `(pubkey, reason)` rows in insertion order;
the schema's `PRIMARY KEY (pubkey)` makes pubkeys unique among rows of any
reachable state. -/
structure DBManager where
  allowed_pubkeys : List (String × String)
  healthy : Bool
deriving DecidableEq, Repr

deriving instance DecidableEq for Except

/-- `getEnv` from main.go: return the variable's value when it is set and
the fallback otherwise. -/
def getEnv (value : Option String) (fallback : String) : String :=
  match value with
  | some v => v
  | none => fallback

/-- `DBManager.AddAllowedPubkey` from database.go: reject an empty pubkey,
then run `INSERT ... ON CONFLICT (pubkey) DO NOTHING`, which appends a fresh
row (its `created_at` defaulting to the insertion time) and silently keeps
the state unchanged when a row with this pubkey already exists. -/
def AddAllowedPubkey (db : DBManager) (pubkey reason : String) :
    Except DBError DBManager :=
  if pubkey = "" then .error .emptyPubkey
  else if db.healthy then
    if db.allowed_pubkeys.any (fun e => e.1 == pubkey) then .ok db
    else .ok { db with allowed_pubkeys := db.allowed_pubkeys ++ [(pubkey, reason)] }
  else .error .connectivity

/-- `DBManager.RemoveAllowedPubkey` from database.go: reject an empty
pubkey, run `DELETE ... WHERE pubkey = $1`, and report the pubkey as not
found when the delete affected zero rows. -/
def RemoveAllowedPubkey (db : DBManager) (pubkey : String) :
    Except DBError DBManager :=
  if pubkey = "" then .error .emptyPubkey
  else if db.healthy then
    if db.allowed_pubkeys.any (fun e => e.1 == pubkey) then
      .ok { db with allowed_pubkeys := db.allowed_pubkeys.filter (fun e => !(e.1 == pubkey)) }
    else .error (.notFound pubkey)
  else .error .connectivity

/-- `DBManager.IsAllowedPubkey` from database.go: an empty pubkey returns
`false` immediately, before the `SELECT EXISTS` query is ever issued; for a
non-empty pubkey the query runs against the store. -/
def IsAllowedPubkey (db : DBManager) (pubkey : String) : Except DBError Bool :=
  if pubkey = "" then .ok false
  else if db.healthy then .ok (db.allowed_pubkeys.any (fun e => e.1 == pubkey))
  else .error .connectivity

/-- `DBManager.GetAllowedPubkeys` from database.go:
`SELECT pubkey FROM allowed_pubkeys ORDER BY created_at`, i.e. the pubkeys
in insertion order; an empty table yields an empty slice, not an error. -/
def GetAllowedPubkeys (db : DBManager) : Except DBError (List String) :=
  if db.healthy then .ok (db.allowed_pubkeys.map (fun e => e.1))
  else .error .connectivity

/-- An event as far as the write policy reads it: the Go callback receives a
full `nostr.Event` but inspects only its `PubKey` field. -/
structure Event where
  pubkey : String
  kind : Nat
  content : String
deriving DecidableEq, Repr

/-- A subscription filter as far as the read policy reads it: the Go
callback receives a `nostr.Filter` and inspects none of its fields. -/
structure Filter where
  ids : List String
  authors : List String
  kinds : List Nat
deriving DecidableEq, Repr

/-- The custom write-policy func appended to `relay.RejectEvent` in main.go:
read `RELAY_PUBKEY` with fallback `""`, query the store for the event's
author, reject on a query error, and otherwise accept exactly when the
author is allowlisted or equals the owner pubkey. -/
def rejectEvent (env : Option String) (db : DBManager) (event : Event) :
    Bool × String :=
  let ownerPubKey := getEnv env ""
  match IsAllowedPubkey db event.pubkey with
  | .error _ => (true, "error checking authorization")
  | .ok isAllowed =>
    if isAllowed || event.pubkey == ownerPubKey then (false, "")
    else (true, "this is a private relay, only authorized users can write here")

/-- The custom read-policy func appended to `relay.RejectFilter` in main.go.
`authedPubkey` is the value of `khatru.GetAuthed(ctx)`: the authenticated
identity of the connection, or `""` when the connection is unauthenticated.
The filter itself is never inspected. -/
def rejectFilter (env : Option String) (db : DBManager) (_filter : Filter)
    (authedPubkey : String) : Bool × String :=
  let ownerPubKey := getEnv env ""
  if authedPubkey ≠ "" then
    match IsAllowedPubkey db authedPubkey with
    | .error _ => (true, "error checking authorization")
    | .ok isAllowed =>
      if isAllowed || authedPubkey == ownerPubKey then (false, "")
      else (true, "this is a private relay, only authorized users can read here")
  else (true, "auth-required: only authenticated users can read from this relay")

/-- `relay.ManagementAPI.RejectAPICall` from main.go: compare the caller's
authenticated identity with the owner pubkey and reject every non-owner
uniformly, independent of which method was called. -/
def rejectAPICall (env : Option String) (user : String) : Bool × String :=
  let ownerPubKey := getEnv env ""
  if user ≠ ownerPubKey then (true, "go away, intruder") else (false, "")

/-- `relay.ManagementAPI.AllowPubKey` from main.go: delegate to
`AddAllowedPubkey`. -/
def AllowPubKey (db : DBManager) (pubkey reason : String) :
    Except DBError DBManager :=
  AddAllowedPubkey db pubkey reason

/-- `relay.ManagementAPI.BanPubKey` from main.go: delegate to
`RemoveAllowedPubkey`, dropping the reason. -/
def BanPubKey (db : DBManager) (pubkey : String) (_reason : String) :
    Except DBError DBManager :=
  RemoveAllowedPubkey db pubkey

/-- `relay.ManagementAPI.ListAllowedPubKeys` from main.go: fetch the pubkeys
from the store and pair each with an empty reason string (the Go code fills
`Reason: ""` for every entry). -/
def ListAllowedPubKeys (db : DBManager) :
    Except DBError (List (String × String)) :=
  match GetAllowedPubkeys db with
  | .error e => .error e
  | .ok pubkeys => .ok (pubkeys.map (fun pk => (pk, "")))

/-- `relay.ManagementAPI.ListBannedPubKeys` from main.go: always return an
empty listing, as the relay keeps no banned set. -/
def ListBannedPubKeys (_db : DBManager) :
    Except DBError (List (String × String)) :=
  .ok []

/-- A NIP-86 management method invocation, one constructor per operation the
relay wires up in main.go. -/
inductive MgmtOp where
  | allow : String → String → MgmtOp
  | ban : String → String → MgmtOp
  | listAllowed : MgmtOp
  | listBanned : MgmtOp
deriving DecidableEq, Repr

/-- Outcome of a management call as seen by the caller. -/
inductive MgmtResponse where
  | denied : String → MgmtResponse
  | opError : DBError → MgmtResponse
  | okDone : MgmtResponse
  | okList : List (String × String) → MgmtResponse
deriving DecidableEq, Repr

/-- The management pipeline of the relay framework: `RejectAPICall` runs
before dispatch, and a rejected call never reaches the operation handlers,
so the store is returned unchanged; an accepted call dispatches to the
handler registered in main.go for the requested method. -/
def managementCall (env : Option String) (user : String) (db : DBManager)
    (op : MgmtOp) : MgmtResponse × DBManager :=
  let (reject, msg) := rejectAPICall env user
  if reject then (.denied msg, db)
  else
    match op with
    | .allow pk r =>
      match AllowPubKey db pk r with
      | .ok db1 => (.okDone, db1)
      | .error e => (.opError e, db)
    | .ban pk r =>
      match BanPubKey db pk r with
      | .ok db1 => (.okDone, db1)
      | .error e => (.opError e, db)
    | .listAllowed =>
      match ListAllowedPubKeys db with
      | .ok l => (.okList l, db)
      | .error e => (.opError e, db)
    | .listBanned =>
      match ListBannedPubKeys db with
      | .ok l => (.okList l, db)
      | .error e => (.opError e, db)

/-! ### Helper lemmas shared by the claim theorems -/

/-- Filtering out every row whose pubkey matches leaves no row whose pubkey
matches. -/
theorem any_filter_not_eq_false (l : List (String × String)) (X : String) :
    (l.filter (fun e => !(e.1 == X))).any (fun e => e.1 == X) = false := by
  rw [List.any_eq_false]
  intro e he
  have h := (List.mem_filter.mp he).2
  simpa using h

/-- A list with pairwise-distinct pubkeys has at most one row with any given
pubkey. -/
theorem countP_le_one_of_nodup (l : List (String × String)) (X : String)
    (h : (l.map Prod.fst).Nodup) :
    l.countP (fun e => e.1 == X) ≤ 1 := by
  induction l with
  | nil => simp
  | cons a t ih =>
    rw [List.map_cons, List.nodup_cons] at h
    rw [List.countP_cons]
    by_cases hp : a.1 = X
    · have ht : t.countP (fun e => e.1 == X) = 0 := by
        rw [List.countP_eq_zero]
        intro e he
        have : e.1 ∈ t.map Prod.fst := List.mem_map_of_mem Prod.fst he
        intro hc
        exact h.1 (by rw [hp, ← (by simpa using hc : e.1 = X)]; exact this)
      simp [ht, hp]
    · simp [hp, ih h.2]

/-! ### Claim theorems -/

/-- Claim C1, as stated, is false on the code: with owner `"owner1"`
configured and the store unreachable, the write policy rejects the owner's
own event with the generic authorization-error message, because the store
lookup runs before the owner equality check. -/
theorem rejectEvent_owner_storage_failure_cex :
    rejectEvent (some "owner1") ⟨[], false⟩ ⟨"owner1", 1, ""⟩ =
      (true, "error checking authorization") := by
  decide

/-- Claim C1 amended: for the configured owner identity the write policy
accepts whenever the storage lookup on the owner's key succeeds, regardless
of allowlist contents; but the lookup is evaluated before the owner equality
check, so when it fails the owner's event is rejected with the generic
authorization-error message. -/
theorem rejectEvent_owner_decision (env : Option String) (db : DBManager)
    (k : Nat) (c : String) :
    rejectEvent env db ⟨getEnv env "", k, c⟩ =
      match IsAllowedPubkey db (getEnv env "") with
      | .ok _ => (false, "")
      | .error _ => (true, "error checking authorization") := by
  unfold rejectEvent
  cases h : IsAllowedPubkey db (getEnv env "") with
  | error e => simp [h]
  | ok b => simp [h]

/-- Claim C7: an empty identity is rejected by `add` and `remove` with the
caller-error message before any storage access, and `contains` on the empty
identity returns `false` without querying storage — all three hold for every
store state, in particular for an unreachable store, which no connectivity
error ever surfaces from. -/
theorem empty_pubkey_rejected_without_storage (db : DBManager) (r : String) :
    AddAllowedPubkey db "" r = .error .emptyPubkey ∧
    RemoveAllowedPubkey db "" = .error .emptyPubkey ∧
    IsAllowedPubkey db "" = .ok false := by
  refine ⟨?_, ?_, ?_⟩ <;> simp [AddAllowedPubkey, RemoveAllowedPubkey, IsAllowedPubkey]

/-- Claim C2: a caller whose authenticated identity differs from the owner
is rejected on every management operation with the single fixed message
`"go away, intruder"`, before the operation dispatches, and the store is
returned unchanged. -/
theorem managementCall_nonowner_uniform_denial (env : Option String)
    (user : String) (db : DBManager) (op : MgmtOp)
    (h : user ≠ getEnv env "") :
    managementCall env user db op = (.denied "go away, intruder", db) := by
  simp [managementCall, rejectAPICall, h]

/-- Witness for C2: owner `"owner1"`, caller `"alice"`, operation
`allow("carol", "")` on an empty healthy store is denied uniformly and the
store is unchanged. -/
theorem managementCall_nonowner_uniform_denial_witness :
    ("alice" : String) ≠ getEnv (some "owner1") "" ∧
    managementCall (some "owner1") "alice" ⟨[], true⟩ (.allow "carol" "") =
      (.denied "go away, intruder", ⟨[], true⟩) :=
  ⟨by decide,
   managementCall_nonowner_uniform_denial (some "owner1") "alice" ⟨[], true⟩
     (.allow "carol" "") (by decide)⟩

/-- Claim C3: for every filter, an unauthenticated connection is rejected
with a message carrying the `"auth-required: "` sentinel prefix; a
connection authenticated as an identity that is neither the owner nor in
the allowlist, against a healthy store, is rejected with the private-relay
read denial message. -/
theorem rejectFilter_unauth_and_unauthorized (env : Option String)
    (db : DBManager) (f : Filter) (X : String) (hX : X ≠ "")
    (hOwner : X ≠ getEnv env "") (hHealthy : db.healthy = true)
    (hAbsent : db.allowed_pubkeys.any (fun e => e.1 == X) = false) :
    rejectFilter env db f "" =
      (true, "auth-required: only authenticated users can read from this relay") ∧
    (∃ rest, (rejectFilter env db f "").2 = "auth-required: " ++ rest) ∧
    rejectFilter env db f X =
      (true, "this is a private relay, only authorized users can read here") := by
  have h1 : rejectFilter env db f "" =
      (true, "auth-required: only authenticated users can read from this relay") := by
    simp [rejectFilter]
  refine ⟨h1, ?_, ?_⟩
  · rw [h1]
    exact ⟨"only authenticated users can read from this relay", by decide⟩
  · simp [rejectFilter, IsAllowedPubkey, hX, hHealthy, hAbsent, hOwner]

/-- Witness for C3: owner `"owner1"`, healthy empty store, authenticated
identity `"bob"` (neither owner nor allowlisted), arbitrary concrete
filter. -/
theorem rejectFilter_unauth_and_unauthorized_witness :
    (("bob" : String) ≠ "" ∧ ("bob" : String) ≠ getEnv (some "owner1") "" ∧
      (⟨[], true⟩ : DBManager).healthy = true ∧
      (⟨[], true⟩ : DBManager).allowed_pubkeys.any (fun e => e.1 == "bob") = false) ∧
    (rejectFilter (some "owner1") ⟨[], true⟩ ⟨[], [], [1]⟩ "" =
      (true, "auth-required: only authenticated users can read from this relay") ∧
    (∃ rest, (rejectFilter (some "owner1") ⟨[], true⟩ ⟨[], [], [1]⟩ "").2 =
      "auth-required: " ++ rest) ∧
    rejectFilter (some "owner1") ⟨[], true⟩ ⟨[], [], [1]⟩ "bob" =
      (true, "this is a private relay, only authorized users can read here")) :=
  ⟨⟨by decide, by decide, rfl, rfl⟩,
   rejectFilter_unauth_and_unauthorized (some "owner1") ⟨[], true⟩
     ⟨[], [], [1]⟩ "bob" (by decide) (by decide) rfl rfl⟩

/-- Claim C4: for an author different from the owner, when the storage
lookup succeeds the write policy accepts exactly when the allowlist
contains the author, and otherwise rejects with the fixed private-relay
write denial message. -/
theorem rejectEvent_nonowner_iff_allowlisted (env : Option String)
    (db : DBManager) (ev : Event) (b : Bool)
    (hOwner : ev.pubkey ≠ getEnv env "")
    (hLookup : IsAllowedPubkey db ev.pubkey = .ok b) :
    rejectEvent env db ev =
      if b then (false, "")
      else (true, "this is a private relay, only authorized users can write here") := by
  unfold rejectEvent
  rw [hLookup]
  cases b <;> simp [hOwner]

/-- Witness for C4: owner `"owner1"`, store holding only `"alice"`, author
`"bob"`: the lookup succeeds with `false` and the event is rejected with
the private-relay message. -/
theorem rejectEvent_nonowner_iff_allowlisted_witness :
    ((⟨"bob", 1, "hi"⟩ : Event).pubkey ≠ getEnv (some "owner1") "" ∧
      IsAllowedPubkey ⟨[("alice", "friend")], true⟩
        (⟨"bob", 1, "hi"⟩ : Event).pubkey = .ok false) ∧
    rejectEvent (some "owner1") ⟨[("alice", "friend")], true⟩ ⟨"bob", 1, "hi"⟩ =
      (true, "this is a private relay, only authorized users can write here") :=
  ⟨⟨by decide, by decide⟩,
   rejectEvent_nonowner_iff_allowlisted (some "owner1")
     ⟨[("alice", "friend")], true⟩ ⟨"bob", 1, "hi"⟩ false (by decide) (by decide)⟩

/-- Claim C5: against a healthy store and a non-empty identity, `remove`
returns the not-found error exactly when no row for the identity exists
beforehand; `ban` delegates to `remove`; and removing a previously added
identity succeeds, after which `contains` is false. -/
theorem remove_notFound_iff_absent (db : DBManager) (X r : String)
    (hX : X ≠ "") (hHealthy : db.healthy = true) :
    (RemoveAllowedPubkey db X = .error (.notFound X) ↔
      db.allowed_pubkeys.any (fun e => e.1 == X) = false) ∧
    BanPubKey db X r = RemoveAllowedPubkey db X ∧
    (∀ db1, AddAllowedPubkey db X r = .ok db1 →
      ∃ db2, RemoveAllowedPubkey db1 X = .ok db2 ∧
        IsAllowedPubkey db2 X = .ok false) := by
  refine ⟨?_, rfl, ?_⟩
  · cases h : db.allowed_pubkeys.any (fun e => e.1 == X) <;>
      simp [RemoveAllowedPubkey, hX, hHealthy, h]
  · intro db1 hAdd
    by_cases hmem : db.allowed_pubkeys.any (fun e => e.1 == X) = true
    · simp [AddAllowedPubkey, hX, hHealthy, hmem] at hAdd
      subst hAdd
      refine ⟨⟨db.allowed_pubkeys.filter (fun e => !(e.1 == X)), true⟩, ?_, ?_⟩
      · simp [RemoveAllowedPubkey, hX, hHealthy, hmem]
      · simp [IsAllowedPubkey, hX, any_filter_not_eq_false]
    · simp [AddAllowedPubkey, hX, hHealthy, hmem] at hAdd
      subst hAdd
      have hany : (db.allowed_pubkeys ++ [(X, r)]).any (fun e => e.1 == X) = true := by
        simp
      refine ⟨⟨(db.allowed_pubkeys ++ [(X, r)]).filter (fun e => !(e.1 == X)), true⟩, ?_, ?_⟩
      · simp [RemoveAllowedPubkey, hX, hHealthy, hany]
      · simp [IsAllowedPubkey, hX, any_filter_not_eq_false]

/-- Witness for C5: `remove("dave")` on an empty healthy store yields the
not-found error, `ban` coincides with `remove`, and add-then-remove leaves
`contains` false. -/
theorem remove_notFound_iff_absent_witness :
    (("dave" : String) ≠ "" ∧ (⟨[], true⟩ : DBManager).healthy = true) ∧
    ((RemoveAllowedPubkey ⟨[], true⟩ "dave" = .error (.notFound "dave") ↔
      (⟨[], true⟩ : DBManager).allowed_pubkeys.any (fun e => e.1 == "dave") = false) ∧
    BanPubKey ⟨[], true⟩ "dave" "" = RemoveAllowedPubkey ⟨[], true⟩ "dave" ∧
    (∀ db1, AddAllowedPubkey ⟨[], true⟩ "dave" "" = .ok db1 →
      ∃ db2, RemoveAllowedPubkey db1 "dave" = .ok db2 ∧
        IsAllowedPubkey db2 "dave" = .ok false)) :=
  ⟨⟨by decide, rfl⟩,
   remove_notFound_iff_absent ⟨[], true⟩ "dave" "" (by decide) rfl⟩

/-- Claim C6: adding the same non-empty identity twice into a healthy store
whose rows have pairwise-distinct pubkeys succeeds both times and leaves
exactly one row for that identity. -/
theorem add_idempotent (db : DBManager) (X r : String)
    (hnd : (db.allowed_pubkeys.map Prod.fst).Nodup) (hX : X ≠ "")
    (hHealthy : db.healthy = true) :
    ∃ db1 db2, AddAllowedPubkey db X r = .ok db1 ∧
      AddAllowedPubkey db1 X r = .ok db2 ∧
      db2.allowed_pubkeys.countP (fun e => e.1 == X) = 1 := by
  cases hmem : db.allowed_pubkeys.any (fun e => e.1 == X) with
  | true =>
    refine ⟨db, db, by simp [AddAllowedPubkey, hX, hHealthy, hmem],
      by simp [AddAllowedPubkey, hX, hHealthy, hmem], ?_⟩
    have hle := countP_le_one_of_nodup db.allowed_pubkeys X hnd
    have hpos : 0 < db.allowed_pubkeys.countP (fun e => e.1 == X) := by
      rw [List.countP_pos_iff]
      exact List.any_eq_true.mp hmem
    omega
  | false =>
    have hm : db.allowed_pubkeys.any (fun e => e.1 == X) = false := hmem
    refine ⟨⟨db.allowed_pubkeys ++ [(X, r)], true⟩, ⟨db.allowed_pubkeys ++ [(X, r)], true⟩,
      by simp [AddAllowedPubkey, hX, hHealthy, hm], ?_, ?_⟩
    · simp [AddAllowedPubkey, hX]
    · have hzero : db.allowed_pubkeys.countP (fun e => e.1 == X) = 0 := by
        rw [List.countP_eq_zero]
        intro e he
        have := List.any_eq_false.mp hm e he
        simpa using this
      simp [List.countP_append, hzero]

/-- Witness for C6: adding `"alice"` twice into an empty healthy store
leaves exactly one row for `"alice"`. -/
theorem add_idempotent_witness :
    (((⟨[], true⟩ : DBManager).allowed_pubkeys.map Prod.fst).Nodup ∧
      ("alice" : String) ≠ "" ∧ (⟨[], true⟩ : DBManager).healthy = true) ∧
    (∃ db1 db2, AddAllowedPubkey ⟨[], true⟩ "alice" "friend" = .ok db1 ∧
      AddAllowedPubkey db1 "alice" "friend" = .ok db2 ∧
      db2.allowed_pubkeys.countP (fun e => e.1 == "alice") = 1) :=
  ⟨⟨List.nodup_nil, by decide, rfl⟩,
   add_idempotent ⟨[], true⟩ "alice" "friend" List.nodup_nil (by decide) rfl⟩

/-- Claim C8: listing an empty healthy store yields the empty sequence (not
an error), and after adding two distinct non-empty identities `A` then `B`
into an empty store, the listing is exactly `[A, B]`, in insertion order. -/
theorem list_insertion_order (A B r1 r2 : String) (hA : A ≠ "")
    (hB : B ≠ "") (hAB : A ≠ B) :
    GetAllowedPubkeys ⟨[], true⟩ = .ok [] ∧
    AddAllowedPubkey ⟨[], true⟩ A r1 = .ok ⟨[(A, r1)], true⟩ ∧
    AddAllowedPubkey ⟨[(A, r1)], true⟩ B r2 = .ok ⟨[(A, r1), (B, r2)], true⟩ ∧
    GetAllowedPubkeys ⟨[(A, r1), (B, r2)], true⟩ = .ok [A, B] := by
  refine ⟨rfl, ?_, ?_, ?_⟩
  · simp [AddAllowedPubkey, hA]
  · simp [AddAllowedPubkey, GetAllowedPubkeys, hB, hAB]
  · simp [GetAllowedPubkeys]

/-- Witness for C8: adding `"alice"` then `"bob"` into an empty healthy
store lists `["alice", "bob"]`. -/
theorem list_insertion_order_witness :
    (("alice" : String) ≠ "" ∧ ("bob" : String) ≠ "" ∧
      ("alice" : String) ≠ "bob") ∧
    (GetAllowedPubkeys ⟨[], true⟩ = .ok [] ∧
    AddAllowedPubkey ⟨[], true⟩ "alice" "r1" = .ok ⟨[("alice", "r1")], true⟩ ∧
    AddAllowedPubkey ⟨[("alice", "r1")], true⟩ "bob" "r2" =
      .ok ⟨[("alice", "r1"), ("bob", "r2")], true⟩ ∧
    GetAllowedPubkeys ⟨[("alice", "r1"), ("bob", "r2")], true⟩ =
      .ok ["alice", "bob"]) :=
  ⟨⟨by decide, by decide, by decide⟩,
   list_insertion_order "alice" "bob" "r1" "r2" (by decide) (by decide) (by decide)⟩

/-- Claim C9, as stated, is false on the code: after adding `"alice"` with
stored reason `"friend"`, the management listing annotates the entry with
the empty reason, not the stored one — `ListAllowedPubKeys` fills
`Reason: ""` for every entry. -/
theorem listAllowed_reason_not_surfaced_cex :
    AddAllowedPubkey ⟨[], true⟩ "alice" "friend" =
      .ok ⟨[("alice", "friend")], true⟩ ∧
    ListAllowedPubKeys ⟨[("alice", "friend")], true⟩ = .ok [("alice", "")] ∧
    ListAllowedPubKeys ⟨[("alice", "friend")], true⟩ ≠
      .ok [("alice", "friend")] := by
  refine ⟨by decide, by decide, by decide⟩

/-- Claim C9 amended: against a healthy store, `listAllowed` returns the
full store listing in insertion order, but every entry is annotated with
the empty reason; stored reasons are not surfaced. -/
theorem listAllowed_full_list_empty_reasons (db : DBManager)
    (hHealthy : db.healthy = true) :
    ListAllowedPubKeys db = .ok (db.allowed_pubkeys.map (fun e => (e.1, ""))) := by
  simp [ListAllowedPubKeys, GetAllowedPubkeys, hHealthy]

/-- Witness for the amended C9: on a healthy one-row store the listing pairs
the stored pubkey with the empty reason. -/
theorem listAllowed_full_list_empty_reasons_witness :
    (⟨[("alice", "friend")], true⟩ : DBManager).healthy = true ∧
    ListAllowedPubKeys ⟨[("alice", "friend")], true⟩ =
      .ok (([("alice", "friend")] : List (String × String)).map (fun e => (e.1, ""))) :=
  ⟨rfl, listAllowed_full_list_empty_reasons ⟨[("alice", "friend")], true⟩ rfl⟩

/-- Claim C10: with `RELAY_PUBKEY` unset the policies use `""` as the owner
identity, so the management pre-check accepts the unauthenticated caller
(whose authenticated identity is `""`) and no management call is denied,
and the write policy accepts every event authored by the empty pubkey, in
every store state. -/
theorem unset_owner_env_open_access :
    getEnv none "" = "" ∧
    rejectAPICall none "" = (false, "") ∧
    (∀ (db : DBManager) (op : MgmtOp) (m : String),
      (managementCall none "" db op).1 ≠ MgmtResponse.denied m) ∧
    (∀ (db : DBManager) (k : Nat) (c : String),
      rejectEvent none db ⟨"", k, c⟩ = (false, "")) := by
  refine ⟨rfl, rfl, ?_, ?_⟩
  · intro db op m
    cases op with
    | allow pk r =>
      cases h : AllowPubKey db pk r <;>
        simp [managementCall, rejectAPICall, getEnv, h]
    | ban pk r =>
      cases h : BanPubKey db pk r <;>
        simp [managementCall, rejectAPICall, getEnv, h]
    | listAllowed =>
      cases h : ListAllowedPubKeys db <;>
        simp [managementCall, rejectAPICall, getEnv, h]
    | listBanned =>
      simp [managementCall, rejectAPICall, getEnv, ListBannedPubKeys]
  · intro db k c
    simp [rejectEvent, IsAllowedPubkey, getEnv]

end Brove
